import Mathlib

/-!
Verification development for the NeoantigenPaperTracker pipeline
(src/scorer.py, src/database.py, src/fetcher.py, src/config.py).

The Python modules are shallowly embedded: the SQLite `papers` table is a
list of `Row` values, network calls (PubMed/bioRxiv endpoints, the Ollama
service) are abstracted as explicit oracle parameters, and the loosely
typed Python values produced by `json.loads` are modelled by the inductive
type `PyVal`.  Python floats, numeric-literal underscores, string-escape
round-tripping and unicode digit forms are outside the fragment exercised
here and are not modelled; everything else follows the source line by line.
-/

/-! ### Python-value model (`json.loads` results and duck-typed coercions) -/

/-- Values producible by `json.loads` in the modelled fragment
(floats are not modelled). A `dict` keeps the raw key/value pair list;
lookups emulate the last-key-wins semantics of Python dict literals. -/
inductive PyVal where
  | null : PyVal
  | bool : Bool → PyVal
  | int : Int → PyVal
  | str : String → PyVal
  | list : List PyVal → PyVal
  | dict : List (String × PyVal) → PyVal

/-- Python exception kinds that `parse_response` can produce.
`valueError` is caught by its `except` clause; the others escape. -/
inductive PyErr where
  | indexError : PyErr
  | attributeError : PyErr
  | typeError : PyErr
  | valueError : PyErr
deriving DecidableEq

/-- Python `dict.get` with last-key-wins construction semantics. -/
def dictGet (kvs : List (String × PyVal)) (k : String) : Option PyVal :=
  (kvs.reverse.find? (fun kv => kv.1 == k)).map (fun kv => kv.2)

def digitsVal (cs : List Char) : Nat :=
  cs.foldl (fun a c => a * 10 + (c.toNat - 48)) 0

def allDigits (cs : List Char) : Bool :=
  !cs.isEmpty && cs.all (fun c => c.isDigit)

/-! ### String helpers shared by scorer.py and fetcher.py models

Core `String` primitives are re-expressed over `List Char` so that every
model evaluates by kernel reduction on concrete inputs. -/

/-- The characters Python `str.strip` removes (ASCII fragment; exotic
unicode spaces not modelled). -/
def pyWsChar (c : Char) : Bool :=
  c = ' ' || c = '\t' || c = '\n' || c = '\r' || c = '\x0b' || c = '\x0c'

def pyStripList (cs : List Char) : List Char :=
  ((cs.dropWhile pyWsChar).reverse.dropWhile pyWsChar).reverse

/-- Python `str.strip()`. -/
def pyStrip (s : String) : String :=
  String.mk (pyStripList s.toList)

/-- Python `s.startswith(p)`. -/
def startsWithStr (p s : String) : Bool :=
  p.toList.isPrefixOf s.toList

/-- Python `s.endswith(p)`. -/
def endsWithStr (p s : String) : Bool :=
  p.toList.reverse.isPrefixOf s.toList.reverse

def splitCharAux (sep : Char) : List Char → List Char → List (List Char)
  | [], acc => [acc.reverse]
  | c :: rest, acc =>
    if c = sep then acc.reverse :: splitCharAux sep rest []
    else splitCharAux sep rest (c :: acc)

/-- Python `s.split(sep)` for a one-character separator. -/
def splitChar (sep : Char) (s : String) : List String :=
  (splitCharAux sep s.toList []).map String.mk

/-- ASCII lowering; Python `str.lower` coincides on the configured ASCII
query strings. -/
def charLower (c : Char) : Char :=
  if 65 ≤ c.toNat && c.toNat ≤ 90 then Char.ofNat (c.toNat + 32) else c

/-- Python `str.lower()` (ASCII fragment). -/
def strLower (s : String) : String :=
  String.mk (s.toList.map charLower)

/-- Python `int(s)` on a string: optional surrounding whitespace, optional
sign, then decimal digits (numeric-literal underscores not modelled). -/
def pyIntOfStr (s : String) : Option Int :=
  match pyStripList s.toList with
  | [] => none
  | c :: rest =>
    if c = '+' then
      if allDigits rest then some (Int.ofNat (digitsVal rest)) else none
    else if c = '-' then
      if allDigits rest then some (-(Int.ofNat (digitsVal rest))) else none
    else
      if allDigits (c :: rest) then some (Int.ofNat (digitsVal (c :: rest))) else none

/-- Python `int(v)`: ints pass through, bools map to 0/1, strings are
parsed (`ValueError` on failure), every other type raises `TypeError`. -/
def pyInt : PyVal → Except PyErr Int
  | .int n => .ok n
  | .bool b => .ok (cond b 1 0)
  | .str s =>
    match pyIntOfStr s with
    | some n => .ok n
    | none => .error .valueError
  | .null => .error .typeError
  | .list _ => .error .typeError
  | .dict _ => .error .typeError

mutual

/-- Computable structural size of a `PyVal`, used as recursion fuel for the
rendering functions (it dominates the nesting depth). -/
def pySize : PyVal → Nat
  | .null => 1
  | .bool _ => 1
  | .int _ => 1
  | .str _ => 1
  | .list xs => pySizeList xs + 1
  | .dict kvs => pySizeDict kvs + 1

def pySizeList : List PyVal → Nat
  | [] => 0
  | x :: xs => pySize x + pySizeList xs + 1

def pySizeDict : List (String × PyVal) → Nat
  | [] => 0
  | kv :: kvs => pySize kv.2 + pySizeDict kvs + 1

end

/-- Single-quote character, used by the Python `repr` of strings. -/
def sglQuote : String := String.singleton (Char.ofNat 39)

/-- Fuel-bounded Python `repr` (string escaping not modelled; the fuel is
always sufficient because it starts at the structural size of the value). -/
def pyReprF : Nat → PyVal → String
  | 0, _ => ""
  | _ + 1, .null => "None"
  | _ + 1, .bool true => "True"
  | _ + 1, .bool false => "False"
  | _ + 1, .int n => toString n
  | _ + 1, .str s => sglQuote ++ s ++ sglQuote
  | f + 1, .list xs =>
    "[" ++ String.intercalate ", " (xs.map (pyReprF f)) ++ "]"
  | f + 1, .dict kvs =>
    "\x7b" ++ String.intercalate ", "
      (kvs.map (fun kv => sglQuote ++ kv.1 ++ sglQuote ++ ": " ++ pyReprF f kv.2)) ++ "\x7d"

/-- Python `str(v)`: identity on strings, canonical words for the atoms,
`repr`-style rendering for containers. Never raises. -/
def pyStr : PyVal → String
  | .str s => s
  | .null => "None"
  | .bool true => "True"
  | .bool false => "False"
  | .int n => toString n
  | .list xs => pyReprF (pySize (PyVal.list xs)) (.list xs)
  | .dict kvs => pyReprF (pySize (PyVal.dict kvs)) (.dict kvs)

/-- Python `list(v)`: lists pass through, strings explode into one-character
strings, dicts yield their keys, everything else raises `TypeError`. -/
def pyList : PyVal → Except PyErr (List PyVal)
  | .list xs => .ok xs
  | .str s => .ok (s.toList.map (fun c => .str (String.singleton c)))
  | .dict kvs => .ok (kvs.map (fun kv => .str kv.1))
  | .null => .error .typeError
  | .bool _ => .error .typeError
  | .int _ => .error .typeError

/-- Fuel-bounded Python `json.dumps` with default separators (string
escaping not modelled). -/
def jsonDumpsF : Nat → PyVal → String
  | 0, _ => ""
  | _ + 1, .null => "null"
  | _ + 1, .bool true => "true"
  | _ + 1, .bool false => "false"
  | _ + 1, .int n => toString n
  | _ + 1, .str s => "\"" ++ s ++ "\""
  | f + 1, .list xs =>
    "[" ++ String.intercalate ", " (xs.map (jsonDumpsF f)) ++ "]"
  | f + 1, .dict kvs =>
    "\x7b" ++ String.intercalate ", "
      (kvs.map (fun kv => "\"" ++ kv.1 ++ "\": " ++ jsonDumpsF f kv.2)) ++ "\x7d"

/-- Python `json.dumps` applied to a list value. -/
def jsonDumpsList (xs : List PyVal) : String :=
  jsonDumpsF (pySize (PyVal.list xs)) (.list xs)

/-! ### A `json.loads` model (strict JSON, ints only, fuel-bounded)

The Python decoder itself is depth-limited by the interpreter recursion
limit, so a fuel bound ample for every input of bounded nesting is a
faithful rendering of the fragment used here. -/

def isJsonWs (c : Char) : Bool :=
  c = ' ' || c = '\t' || c = '\n' || c = '\r'

def skipWs (cs : List Char) : List Char :=
  cs.dropWhile isJsonWs

def lbrace : Char := Char.ofNat 123
def rbrace : Char := Char.ofNat 125

/-- Parse the digits of a JSON number after an optional minus sign,
rejecting leading zeros and any float continuation (floats unmodelled). -/
def jNat (cs : List Char) : Option (Nat × List Char) :=
  let ds := cs.takeWhile (fun c => c.isDigit)
  let rest := cs.dropWhile (fun c => c.isDigit)
  if ds.isEmpty then none
  else if ds.length > 1 && ds.headD '0' = '0' then none
  else
    match rest with
    | [] => some (digitsVal ds, [])
    | c :: _ =>
      if c = '.' || c = 'e' || c = 'E' then none
      else some (digitsVal ds, rest)

/-- Parse a JSON number (integer fragment). -/
def jNum (cs : List Char) : Option (Int × List Char) :=
  match cs with
  | '-' :: rest => (jNat rest).map (fun p => (-(Int.ofNat p.1), p.2))
  | _ => (jNat cs).map (fun p => (Int.ofNat p.1, p.2))

def hexVal (c : Char) : Option Nat :=
  if c.isDigit then some (c.toNat - 48)
  else if 'a' ≤ c && c ≤ 'f' then some (c.toNat - 87)
  else if 'A' ≤ c && c ≤ 'F' then some (c.toNat - 55)
  else none

/-- Parse the body of a JSON string after the opening quote.  Strict mode:
raw control characters are rejected; the standard escapes are handled
(surrogate pairs unmodelled). -/
def jStrAux : Nat → List Char → List Char → Option (String × List Char)
  | 0, _, _ => none
  | _ + 1, [], _ => none
  | f + 1, c :: rest, acc =>
    if c = '"' then some (String.mk acc.reverse, rest)
    else if c = '\\' then
      match rest with
      | [] => none
      | e :: rest2 =>
        if e = '"' then jStrAux f rest2 ('"' :: acc)
        else if e = '\\' then jStrAux f rest2 ('\\' :: acc)
        else if e = '/' then jStrAux f rest2 ('/' :: acc)
        else if e = 'n' then jStrAux f rest2 ('\n' :: acc)
        else if e = 't' then jStrAux f rest2 ('\t' :: acc)
        else if e = 'r' then jStrAux f rest2 ('\r' :: acc)
        else if e = 'b' then jStrAux f rest2 ('\x08' :: acc)
        else if e = 'f' then jStrAux f rest2 ('\x0c' :: acc)
        else if e = 'u' then
          match rest2 with
          | h1 :: h2 :: h3 :: h4 :: rest3 =>
            match hexVal h1, hexVal h2, hexVal h3, hexVal h4 with
            | some a, some b, some c3, some d =>
              jStrAux f rest3 (Char.ofNat (((a * 16 + b) * 16 + c3) * 16 + d) :: acc)
            | _, _, _, _ => none
          | _ => none
        else none
    else if c.toNat < 32 then none
    else jStrAux f rest (c :: acc)

mutual

/-- Parse one JSON value (leading whitespace allowed). -/
def jVal : Nat → List Char → Option (PyVal × List Char)
  | 0, _ => none
  | f + 1, cs =>
    match skipWs cs with
    | [] => none
    | c :: rest =>
      if c = lbrace then
        match skipWs rest with
        | [] => none
        | d :: rest2 =>
          if d = rbrace then some (.dict [], rest2)
          else (jMembers f (d :: rest2)).map (fun p => (PyVal.dict p.1, p.2))
      else if c = '[' then
        match skipWs rest with
        | [] => none
        | d :: rest2 =>
          if d = ']' then some (.list [], rest2)
          else (jItems f (d :: rest2)).map (fun p => (PyVal.list p.1, p.2))
      else if c = '"' then
        (jStrAux (rest.length + 1) rest []).map (fun p => (PyVal.str p.1, p.2))
      else if c = 't' then
        if ['r', 'u', 'e'].isPrefixOf rest then some (.bool true, rest.drop 3) else none
      else if c = 'f' then
        if ['a', 'l', 's', 'e'].isPrefixOf rest then some (.bool false, rest.drop 4) else none
      else if c = 'n' then
        if ['u', 'l', 'l'].isPrefixOf rest then some (.null, rest.drop 3) else none
      else if c = '-' || c.isDigit then
        (jNum (c :: rest)).map (fun p => (PyVal.int p.1, p.2))
      else none

/-- Parse `value (, value)* ]` — a non-empty array tail. -/
def jItems : Nat → List Char → Option (List PyVal × List Char)
  | 0, _ => none
  | f + 1, cs =>
    match jVal f cs with
    | none => none
    | some (v, r) =>
      match skipWs r with
      | ',' :: r2 => (jItems f r2).map (fun p => (v :: p.1, p.2))
      | ']' :: r2 => some ([v], r2)
      | _ => none

/-- Parse `"key" : value (, "key" : value)* end-brace` — a non-empty
object tail. -/
def jMembers : Nat → List Char → Option (List (String × PyVal) × List Char)
  | 0, _ => none
  | f + 1, cs =>
    match skipWs cs with
    | '"' :: r =>
      match jStrAux (r.length + 1) r [] with
      | none => none
      | some (k, r2) =>
        match skipWs r2 with
        | ':' :: r3 =>
          match jVal f r3 with
          | none => none
          | some (v, r4) =>
            match skipWs r4 with
            | ',' :: r5 => (jMembers f r5).map (fun p => ((k, v) :: p.1, p.2))
            | d :: r5 => if d = rbrace then some ([(k, v)], r5) else none
            | [] => none
        | _ => none
    | _ => none

end

/-- Model of `json.loads`: decode one JSON document with nothing but
whitespace around it; `none` models `json.JSONDecodeError`. -/
def jsonLoads (s : String) : Option PyVal :=
  let cs := s.toList
  match jVal (2 * cs.length + 8) cs with
  | some (v, rest) => if (skipWs rest).isEmpty then some v else none
  | none => none


/-- Whether `pat` occurs as a contiguous run inside `hay` (Python `in`). -/
def strContains (hay pat : String) : Bool :=
  (List.range (hay.toList.length + 1)).any
    (fun i => pat.toList.isPrefixOf (hay.toList.drop i))

/-- The text after the first newline, or `none` when there is none —
Python `s.split("\n", 1)[1]`, whose index raises when no split happened. -/
def afterFirstNl (s : String) : Option String :=
  if s.toList.contains '\n' then
    some (String.mk ((s.toList.dropWhile (fun c => c ≠ '\n')).drop 1))
  else none

/-- Everything before the last occurrence of `pat`, the whole string when
there is none — Python `s.rsplit(pat, 1)[0]`. -/
def rsplitBefore (pat s : String) : String :=
  match ((List.range (s.toList.length + 1)).filter
      (fun i => pat.toList.isPrefixOf (s.toList.drop i))).getLast? with
  | some i => String.mk (s.toList.take i)
  | none => s

/-- Python `str.removeprefix`. -/
def stripPre (p s : String) : String :=
  if startsWithStr p s then String.mk (s.toList.drop p.toList.length) else s

/-- Python `str.removesuffix`. -/
def stripSuf (p s : String) : String :=
  if endsWithStr p s then
    String.mk (s.toList.take (s.toList.length - p.toList.length))
  else s

/-! ### scorer.py -/

def OLLAMA_MODEL : String := "mistral"

/-- Model of `check_ollama`.  `reachable = false` stands for any failing
or exception-raising status request (connection error, non-2xx, bad JSON);
`models` is the list of model names the service reports.  The source keeps
only the part of each name before the first colon and then looks for the
configured model. -/
def check_ollama (reachable : Bool) (models : List String) : Bool :=
  if reachable then
    (models.map (fun m => (splitChar ':' m).headD m)).contains OLLAMA_MODEL
  else false

/-- The code-fence stripping done by `parse_response` before the `try`
block: when the text starts with a fence, drop through the first newline
(an `IndexError` escapes when there is none) and cut at the last closing
fence; then unconditionally remove a `json`-tagged fence pair and trim. -/
def stripFenceStage (text : String) : Except PyErr String :=
  match
    (if startsWithStr "```" text then
      match afterFirstNl text with
      | some rest => Except.ok (pyStrip (rsplitBefore "```" rest))
      | none => Except.error PyErr.indexError
    else Except.ok text) with
  | .ok t => .ok (pyStrip (stripSuf "```" (stripPre "```json" t)))
  | .error e => .error e

/-- The coerced scoring record built on a successful decode. -/
structure Scored where
  relevance_score : Int
  summary : String
  key_finding : String
  tags : List PyVal

/-- The dict-literal coercions of `parse_response`, evaluated in source
order: `int` on the score (clamped to [1,10] around it), `str` on summary
and key finding, `list` on tags. -/
def coerceFields (kvs : List (String × PyVal)) : Except PyErr Scored :=
  match pyInt ((dictGet kvs "relevance_score").getD (.int 1)) with
  | .error e => .error e
  | .ok n =>
    let sm := pyStr ((dictGet kvs "summary").getD (.str ""))
    let kf := pyStr ((dictGet kvs "key_finding").getD (.str ""))
    match pyList ((dictGet kvs "tags").getD (.list [])) with
    | .error e => .error e
    | .ok tg => .ok ⟨max 1 (min 10 n), sm, kf, tg⟩

/-- Model of `parse_response`.  `Except.error` is an exception escaping the
function: `IndexError` from fence stripping, `AttributeError` from `.get`
on a decoded non-dict, `TypeError` from `int()`/`list()` on wrongly typed
fields.  `json.JSONDecodeError` and `ValueError` are caught and yield
`Except.ok none`, the unscoreable-reply result. -/
def parse_response (text : String) : Except PyErr (Option Scored) :=
  match stripFenceStage text with
  | .error e => .error e
  | .ok t =>
    match jsonLoads t with
    | none => .ok none
    | some (.dict kvs) =>
      match coerceFields kvs with
      | .ok r => .ok (some r)
      | .error .valueError => .ok none
      | .error e => .error e
    | some _ => .error .attributeError

/-- Model of `score_paper`: the chat request is abstracted as its optional
reply text (`none` for any network/HTTP failure).  The broad
`except Exception` turns every exception escaping `parse_response` into
`None` as well; the reply body is stripped before parsing, as in source. -/
def score_paper (reply : Option String) : Option Scored :=
  match reply with
  | none => none
  | some text =>
    match parse_response (pyStrip text) with
    | .ok o => o
    | .error _ => none

/-! ### database.py

The `papers` table is a list of `Row` values in insertion order; the
JSON-typed TEXT columns hold serialized strings, nullable columns are
`Option`-typed, timestamps are abstract strings supplied by the callers
(the per-call `datetime.utcnow()` clock becomes an explicit argument). -/

structure Row where
  id : String
  source : String
  title : String
  authors : String
  abstract : String
  journal : String
  published_date : String
  url : String
  doi : String
  relevance_score : Option Int
  summary : Option String
  key_finding : Option String
  tags : Option String
  fetched_at : String
  scored_at : Option String
  starred : Int
  notes : Option String
deriving DecidableEq

abbrev Store := List Row

/-- The dict a source adapter emits for one paper. -/
structure Paper where
  id : String
  source : String
  title : String
  authors : List String
  abstract : String
  journal : String
  published_date : String
  url : String
  doi : String
deriving DecidableEq

/-- The row `insert_paper` writes: descriptive fields from the adapter
dict, authors JSON-serialized, scoring fields NULL, `fetched_at` the
insertion clock, `starred` its column default 0, `notes` NULL. -/
def mkRow (now : String) (p : Paper) : Row :=
  { id := p.id
    source := p.source
    title := p.title
    authors := jsonDumpsList (p.authors.map PyVal.str)
    abstract := p.abstract
    journal := p.journal
    published_date := p.published_date
    url := p.url
    doi := p.doi
    relevance_score := none
    summary := none
    key_finding := none
    tags := none
    fetched_at := now
    scored_at := none
    starred := 0
    notes := none }

/-- Model of `paper_exists`. -/
def paper_exists (st : Store) (pid : String) : Bool :=
  st.any (fun r => r.id == pid)

/-- Model of `insert_paper`: `INSERT OR IGNORE` keyed on the primary key
`id` is insert-if-absent. -/
def insert_paper (now : String) (p : Paper) (st : Store) : Store :=
  if paper_exists st p.id then st else st ++ [mkRow now p]

/-- Model of `update_paper_scoring`: sets the four scoring columns and
`scored_at` on every row matching `id` (a no-op when none matches). -/
def update_paper_scoring (pid : String) (score : Int) (sm kf : String)
    (tg : List PyVal) (now : String) (st : Store) : Store :=
  st.map (fun r =>
    if r.id = pid then
      { r with
        relevance_score := some score
        summary := some sm
        key_finding := some kf
        tags := some (jsonDumpsList tg)
        scored_at := some now }
    else r)

/-- Sort key of `ORDER BY fetched_at DESC`. -/
def fetchedDesc (a b : Row) : Bool :=
  decide (b.fetched_at ≤ a.fetched_at)

/-- Model of `get_unscored_papers`: rows whose `relevance_score` is NULL,
newest fetch first. -/
def get_unscored_papers (st : Store) : List Row :=
  (st.filter (fun r => r.relevance_score.isNone)).mergeSort fetchedDesc

/-- The numeric key `ORDER BY relevance_score DESC` sorts on (rows reaching
the sort have a non-NULL score, so the default never decides). -/
def scoreKey (r : Row) : Int :=
  r.relevance_score.getD 0

/-- Sort key of `ORDER BY published_date DESC, relevance_score DESC`. -/
def paperOrd (a b : Row) : Bool :=
  decide (b.published_date < a.published_date) ||
    (a.published_date == b.published_date && decide (scoreKey b ≤ scoreKey a))

/-- SQL comparison `relevance_score >= min_score`: NULL compares to
nothing, so unscored rows are filtered out. -/
def scoreAtLeast (minScore : Int) (r : Row) : Bool :=
  match r.relevance_score with
  | some s => decide (minScore ≤ s)
  | none => false

/-- Python truthiness of the optional `source`/`tag` arguments: `None` and
the empty string both skip the corresponding filter. -/
def optTruthy (o : Option String) : Option String :=
  match o with
  | some s => if s = "" then none else some s
  | none => none

/-- The optional `AND source = ?` clause. -/
def sourceFilter (src : Option String) (rows : List Row) : List Row :=
  match optTruthy src with
  | some s => rows.filter (fun r => r.source == s)
  | none => rows

/-- The optional tags LIKE clause, matching the quoted tag as a substring
of the serialized tags column (NULL tags match nothing). -/
def tagFilter (tag : Option String) (rows : List Row) : List Row :=
  match optTruthy tag with
  | some t =>
    rows.filter (fun r =>
      match r.tags with
      | some ts => strContains ts ("\"" ++ t ++ "\"")
      | none => false)
  | none => rows

/-- Model of `get_papers`: score filter, optional source equality filter,
optional tag filter, then the descending sort and `LIMIT`. -/
def get_papers (minScore : Int) (lim : Nat) (src tag : Option String)
    (st : Store) : List Row :=
  ((tagFilter tag (sourceFilter src
    (st.filter (scoreAtLeast minScore)))).mergeSort paperOrd).take lim

/-- The `CASE WHEN starred = 1 THEN 0 ELSE 1 END` update applied to one
row when its id matches. -/
def toggleRow (pid : String) (r : Row) : Row :=
  if r.id = pid then
    { r with starred := if r.starred = 1 then 0 else 1 }
  else r

/-- Model of `toggle_star`: flip 1 to 0 and anything else to 1 on every
row matching `id`. -/
def toggle_star (pid : String) (st : Store) : Store :=
  st.map (toggleRow pid)

/-- Model of `update_notes`. -/
def update_notes (pid : String) (txt : String) (st : Store) : Store :=
  st.map (fun r => if r.id = pid then { r with notes := some txt } else r)

/-! ### scorer.py, the scoring pass -/

/-- Model of `score_all_unscored`.  The service status check and the
per-paper chat replies are oracle parameters; the clock is one abstract
timestamp (its exact value never matters to the claims). -/
def score_all_unscored (reachable : Bool) (models : List String)
    (reply : Row → Option String) (now : String) (st : Store) : Store × Nat :=
  let papers := get_unscored_papers st
  if papers.isEmpty then (st, 0)
  else if !check_ollama reachable models then (st, 0)
  else
    papers.foldl
      (fun acc p =>
        match score_paper (reply p) with
        | some r =>
          (update_paper_scoring p.id r.relevance_score r.summary
            r.key_finding r.tags now acc.1, acc.2 + 1)
        | none => acc)
      (st, 0)

/-! ### fetcher.py -/

def MAX_PAPERS_PER_RUN : Nat := 50

def BIORXIV_QUERIES : List String :=
  ["neoantigen vaccine", "personalized cancer vaccine",
   "neoepitope vaccine", "tumor mutanome"]

/-- One record of the bulk-listing JSON collection; every field is read
with a defaulting `get`, so each is optional here. -/
structure BioRaw where
  doi : Option String
  title : Option String
  authors : Option String
  abstract : Option String
  date : Option String
deriving DecidableEq

/-- Model of `_matches_query`: case-insensitive substring match of any
query against title and abstract joined by one space. -/
def matches_query (p : BioRaw) (queries : List String) : Bool :=
  let searchable := strLower (p.title.getD "" ++ " " ++ p.abstract.getD "")
  queries.any (fun q => strContains searchable (strLower q))

/-- The three `continue` guards of the `fetch_biorxiv` record loop:
a record survives when its doi is non-empty, its id is not yet stored,
and some query matches. -/
def biorxivKeep (st : Store) (queries : List String) (server : String)
    (p : BioRaw) : Bool :=
  let doi := p.doi.getD ""
  decide (doi ≠ "") && !paper_exists st (server ++ ":" ++ doi) &&
    matches_query p queries

/-- The paper dict `fetch_biorxiv` assembles for one surviving record. -/
def biorxivPaper (server : String) (p : BioRaw) : Paper :=
  let doi := p.doi.getD ""
  let authorsRaw := p.authors.getD ""
  { id := server ++ ":" ++ doi
    source := server
    title := p.title.getD "No title"
    authors :=
      if authorsRaw = "" then []
      else ((splitChar ';' authorsRaw).map pyStrip).filter (fun a => a ≠ "")
    abstract := p.abstract.getD ""
    journal := server ++ " (preprint)"
    published_date := p.date.getD ""
    url := if doi ≠ "" then "https://doi.org/" ++ doi else ""
    doi := doi }

/-- The record loop of `fetch_biorxiv` for one server variant. -/
def fetch_biorxiv_server (st : Store) (queries : List String)
    (server : String) (raws : List BioRaw) : List Paper :=
  (raws.filter (biorxivKeep st queries server)).map (biorxivPaper server)

/-- Model of `fetch_biorxiv`: the two bulk listings (network responses
abstracted as `rawsBio`/`rawsMed`) processed in fixed variant order,
results accumulated in that order. -/
def fetch_biorxiv (st : Store) (rawsBio rawsMed : List BioRaw) : List Paper :=
  fetch_biorxiv_server st BIORXIV_QUERIES "biorxiv" rawsBio ++
    fetch_biorxiv_server st BIORXIV_QUERIES "medrxiv" rawsMed

/-- The cross-run filter of `fetch_pubmed`: PMIDs whose composite id is
already stored are dropped.  `allPmids` stands for the iteration order of
the accumulated PMID set (its per-query origin carries no claim content). -/
def pubmedNewPmids (st : Store) (allPmids : List String) : List String :=
  allPmids.filter (fun p => !paper_exists st ("pubmed:" ++ p))

/-- Model of `fetch_pubmed`: filter to unseen PMIDs, return early when
none, else fetch details in batches of 20 through the network oracle
`fetchDetails` and concatenate. -/
def fetch_pubmed (st : Store) (allPmids : List String)
    (fetchDetails : List String → List Paper) : List Paper :=
  let newPmids := pubmedNewPmids st allPmids
  if newPmids.isEmpty then []
  else (newPmids.toChunks 20).foldl (fun acc b => acc ++ fetchDetails b) []

/-- The within-run DOI dedup loop of `fetch_all`: a record whose non-empty
doi was already seen is dropped; an empty doi neither drops a record nor
enters the seen set. -/
def dedupDoi (seen : List String) : List Paper → List Paper
  | [] => []
  | p :: ps =>
    if p.doi ≠ "" && seen.contains p.doi then dedupDoi seen ps
    else if p.doi ≠ "" then p :: dedupDoi (p.doi :: seen) ps
    else p :: dedupDoi seen ps

/-- The tail of `fetch_all` after both adapters returned: DOI dedup,
truncation to `MAX_PAPERS_PER_RUN`, insertion of the survivors, and the
count of survivors as the run report. -/
def fetch_all_core (now : String) (st : Store) (all_papers : List Paper) :
    Store × Nat :=
  let uniquePapers := (dedupDoi [] all_papers).take MAX_PAPERS_PER_RUN
  (uniquePapers.foldl (fun s p => insert_paper now p s) st, uniquePapers.length)

/-- Model of `fetch_all`: both adapters in fixed order, then the shared
dedup/truncate/insert tail. -/
def fetch_all (now : String) (st : Store) (allPmids : List String)
    (fetchDetails : List String → List Paper)
    (rawsBio rawsMed : List BioRaw) : Store × Nat :=
  fetch_all_core now st
    (fetch_pubmed st allPmids fetchDetails ++ fetch_biorxiv st rawsBio rawsMed)

/-! ### database.py, operation sequences (for the lifecycle invariant) -/

/-- The store operations a run can interleave, with their clock inputs. -/
inductive DbOp where
  | ins : String → Paper → DbOp
  | scoreUpd : String → Int → String → String → List PyVal → String → DbOp
  | star : String → DbOp
  | note : String → String → DbOp

/-- Apply one store operation. -/
def applyOp (st : Store) : DbOp → Store
  | .ins now p => insert_paper now p st
  | .scoreUpd pid sc sm kf tg now => update_paper_scoring pid sc sm kf tg now st
  | .star pid => toggle_star pid st
  | .note pid txt => update_notes pid txt st

/-- Run a sequence of store operations from a given store. -/
def runOps (st : Store) (ops : List DbOp) : Store :=
  ops.foldl applyOp st

/-! ### Helper lemmas on the scoring coercions -/

/-- Whether the `list()` coercion of the tags field succeeds (it raises
`TypeError` on a null/bool/int tags value). -/
def tagsCoercible (kvs : List (String × PyVal)) : Bool :=
  match pyList ((dictGet kvs "tags").getD (.list [])) with
  | .ok _ => true
  | .error _ => false

theorem tagsCoercible_ok {kvs : List (String × PyVal)}
    (h : tagsCoercible kvs = true) :
    ∃ tg, pyList ((dictGet kvs "tags").getD (.list [])) = .ok tg := by
  unfold tagsCoercible at h
  rcases hp : pyList ((dictGet kvs "tags").getD (.list [])) with e | tg
  · rw [hp] at h; cases h
  · exact ⟨tg, rfl⟩

theorem coerceFields_int {kvs : List (String × PyVal)} {n : Int}
    (h : dictGet kvs "relevance_score" = some (.int n))
    {tg : List PyVal}
    (htg : pyList ((dictGet kvs "tags").getD (.list [])) = .ok tg) :
    coerceFields kvs =
      .ok ⟨max 1 (min 10 n),
        pyStr ((dictGet kvs "summary").getD (.str "")),
        pyStr ((dictGet kvs "key_finding").getD (.str "")), tg⟩ := by
  unfold coerceFields
  rw [h]
  simp only [Option.getD_some, pyInt]
  rw [htg]

theorem coerceFields_missing {kvs : List (String × PyVal)}
    (h : dictGet kvs "relevance_score" = none)
    {tg : List PyVal}
    (htg : pyList ((dictGet kvs "tags").getD (.list [])) = .ok tg) :
    coerceFields kvs =
      .ok ⟨1,
        pyStr ((dictGet kvs "summary").getD (.str "")),
        pyStr ((dictGet kvs "key_finding").getD (.str "")), tg⟩ := by
  unfold coerceFields
  rw [h]
  simp only [Option.getD_some, pyInt]
  rw [htg]
  norm_num

theorem coerceFields_strBad {kvs : List (String × PyVal)} {v : String}
    (h : dictGet kvs "relevance_score" = some (.str v))
    (hv : pyIntOfStr v = none) :
    coerceFields kvs = .error .valueError := by
  unfold coerceFields
  rw [h]
  simp only [Option.getD_some, pyInt]
  rw [hv]

theorem coerceFields_ok_bounds {kvs : List (String × PyVal)} {r : Scored}
    (h : coerceFields kvs = .ok r) :
    1 ≤ r.relevance_score ∧ r.relevance_score ≤ 10 := by
  unfold coerceFields at h
  rcases hi : pyInt ((dictGet kvs "relevance_score").getD (.int 1)) with e | n
  · rw [hi] at h; cases h
  · rw [hi] at h
    rcases ht : pyList ((dictGet kvs "tags").getD (.list [])) with e | tg
    · simp only [ht] at h; cases h
    · simp only [ht] at h
      cases h
      constructor
      · exact le_max_left 1 (min 10 n)
      · exact max_le (by norm_num) (min_le_left 10 n)

/-! ### Claims C1 and C2: parse_response -/

/-- C1 (amended): for every scoring reply whose fence stripping succeeds
and which decodes as a structured object, `parse_response` clamps an
integer `relevance_score` to the nearest bound of [1,10] and stores 1 when
the key is missing (both provided the tags field is list-coercible); but a
reply whose `relevance_score` value is a non-numeric string yields `none`
— the paper is treated as unscoreable for this attempt, not scored as 1. -/
theorem C1_score_coercion (s t : String) (kvs : List (String × PyVal))
    (hstrip : stripFenceStage s = .ok t)
    (hdec : jsonLoads t = some (.dict kvs)) :
    (dictGet kvs "relevance_score" = none → tagsCoercible kvs = true →
      ∃ r, parse_response s = .ok (some r) ∧ r.relevance_score = 1)
    ∧ (∀ n : Int, dictGet kvs "relevance_score" = some (.int n) →
      tagsCoercible kvs = true →
      ∃ r, parse_response s = .ok (some r) ∧
        r.relevance_score = max 1 (min 10 n) ∧
        (n < 1 → r.relevance_score = 1) ∧
        (10 < n → r.relevance_score = 10) ∧
        (1 ≤ n → n ≤ 10 → r.relevance_score = n))
    ∧ (∀ v : String, dictGet kvs "relevance_score" = some (.str v) →
      pyIntOfStr v = none → parse_response s = .ok none) := by
  refine ⟨?_, ?_, ?_⟩
  · intro hmiss htags
    obtain ⟨tg, htg⟩ := tagsCoercible_ok htags
    refine ⟨⟨1, pyStr ((dictGet kvs "summary").getD (.str "")),
      pyStr ((dictGet kvs "key_finding").getD (.str "")), tg⟩, ?_, rfl⟩
    simp only [parse_response, hstrip, hdec, coerceFields_missing hmiss htg]
  · intro n hn htags
    obtain ⟨tg, htg⟩ := tagsCoercible_ok htags
    refine ⟨⟨max 1 (min 10 n), pyStr ((dictGet kvs "summary").getD (.str "")),
      pyStr ((dictGet kvs "key_finding").getD (.str "")), tg⟩, ?_, rfl, ?_, ?_, ?_⟩
    · simp only [parse_response, hstrip, hdec, coerceFields_int hn htg]
    · intro h
      show max 1 (min 10 n) = 1
      omega
    · intro h
      show max 1 (min 10 n) = 10
      omega
    · intro h1 h2
      show max 1 (min 10 n) = n
      omega
  · intro v hv hbad
    simp only [parse_response, hstrip, hdec, coerceFields_strBad hv hbad]

/-- C1 witness: the reply with `relevance_score` 99 is clamped to 10. -/
theorem C1_witness :
    ∃ r, parse_response "\x7b\"relevance_score\": 99\x7d" = .ok (some r) ∧
      r.relevance_score = 10 := by
  obtain ⟨r, hr, _, _, h10, _⟩ :=
    (C1_score_coercion "\x7b\"relevance_score\": 99\x7d"
      "\x7b\"relevance_score\": 99\x7d" [("relevance_score", .int 99)]
      rfl rfl).2.1 99 rfl rfl
  exact ⟨r, hr, h10 (by norm_num)⟩

/-- C1 counterexample: the reply decodes as a structured object and its
`relevance_score` is the non-numeric string "high", yet `parse_response`
returns `none` (the paper is skipped), not a record scored 1 as the claim
states. -/
theorem C1_counterexample :
    jsonLoads "\x7b\"relevance_score\": \"high\"\x7d" =
      some (.dict [("relevance_score", .str "high")])
    ∧ parse_response "\x7b\"relevance_score\": \"high\"\x7d" = .ok none :=
  ⟨rfl, rfl⟩

/-- C2 (amended): whenever fence stripping succeeds and the stripped text
fails to decode, `parse_response` returns `none` (the unscoreable-reply
result); and every successfully returned record carries a score already
clamped into [1,10].  `parse_response` is, however, not total — see the
counterexample. -/
theorem C2_parse_response_shape (s : String) :
    (∀ t, stripFenceStage s = .ok t → jsonLoads t = none →
      parse_response s = .ok none)
    ∧ (∀ r : Scored, parse_response s = .ok (some r) →
      1 ≤ r.relevance_score ∧ r.relevance_score ≤ 10) := by
  constructor
  · intro t hs hj
    simp only [parse_response, hs, hj]
  · intro r h
    rcases hs : stripFenceStage s with e | t
    · simp [parse_response, hs] at h
    · rcases hj : jsonLoads t with _ | v
      · simp [parse_response, hs, hj] at h
      · cases v with
        | dict kvs =>
          rcases hc : coerceFields kvs with e | r2
          · cases e <;> simp [parse_response, hs, hj, hc] at h
          · simp only [parse_response, hs, hj, hc, Except.ok.injEq,
              Option.some.injEq] at h
            exact h ▸ coerceFields_ok_bounds hc
        | null => simp [parse_response, hs, hj] at h
        | bool b => simp [parse_response, hs, hj] at h
        | int n => simp [parse_response, hs, hj] at h
        | str v => simp [parse_response, hs, hj] at h
        | list xs => simp [parse_response, hs, hj] at h

/-- C2 witness: a plain-prose reply is returned as `none`. -/
theorem C2_witness : parse_response "not json" = .ok none :=
  (C2_parse_response_shape "not json").1 "not json" rfl rfl

/-- C2 counterexample: on the input consisting of a bare code fence,
`parse_response` raises `IndexError` (the `[1]` index after
`split("\n", 1)` when the text has no newline) instead of terminating with
a dict or `None` as the claim states. -/
theorem C2_counterexample : parse_response "```" = .error .indexError := rfl

/-! ### Sample values used by the witnesses -/

def samplePaper : Paper :=
  { id := "pubmed:12345"
    source := "pubmed"
    title := "Neoantigen mRNA vaccine trial"
    authors := ["A One", "B Two"]
    abstract := "A trial."
    journal := "J"
    published_date := "2025-01-02"
    url := "https://pubmed.ncbi.nlm.nih.gov/12345/"
    doi := "10.1/x" }

def sampleBioRaw : BioRaw :=
  { doi := some "10.1101/z"
    title := some "A neoantigen vaccine study"
    authors := some "C Three; D Four"
    abstract := some ""
    date := some "2025-02-03" }

/-! ### Claim C3: scored-flag consistency -/

/-- The lifecycle invariant: a row carries a relevance score exactly when
it carries a scoring timestamp. -/
def scoredConsistent (st : Store) : Prop :=
  ∀ r ∈ st, r.relevance_score.isSome = r.scored_at.isSome

theorem scoredConsistent_applyOp {st : Store} (h : scoredConsistent st)
    (op : DbOp) : scoredConsistent (applyOp st op) := by
  cases op with
  | ins now p =>
    intro r hr
    simp only [applyOp, insert_paper] at hr
    by_cases hex : paper_exists st p.id
    · rw [if_pos hex] at hr
      exact h r hr
    · rw [if_neg hex] at hr
      rcases List.mem_append.1 hr with h1 | h1
      · exact h r h1
      · rw [List.mem_singleton.1 h1]
        rfl
  | scoreUpd pid sc sm kf tg now =>
    intro r hr
    simp only [applyOp, update_paper_scoring, List.mem_map] at hr
    obtain ⟨a, ha, hfa⟩ := hr
    subst hfa
    by_cases hid : a.id = pid
    · simp only [if_pos hid]
      rfl
    · simp only [if_neg hid]
      exact h a ha
  | star pid =>
    intro r hr
    simp only [applyOp, toggle_star, toggleRow, List.mem_map] at hr
    obtain ⟨a, ha, hfa⟩ := hr
    subst hfa
    by_cases hid : a.id = pid
    · simp only [if_pos hid]
      exact h a ha
    · simp only [if_neg hid]
      exact h a ha
  | note pid txt =>
    intro r hr
    simp only [applyOp, update_notes, List.mem_map] at hr
    obtain ⟨a, ha, hfa⟩ := hr
    subst hfa
    by_cases hid : a.id = pid
    · simp only [if_pos hid]
      exact h a ha
    · simp only [if_neg hid]
      exact h a ha

/-- C3: after any sequence of `insert_paper`, `update_paper_scoring`,
`toggle_star`, `update_notes` starting from the empty store, every record
has a relevance score exactly when it has a scoring timestamp
(`insert_paper` sets neither, `update_paper_scoring` sets both). -/
theorem scoredConsistent_runOps (ops : List DbOp) :
    ∀ st, scoredConsistent st → scoredConsistent (runOps st ops) := by
  induction ops with
  | nil => intro st hst; exact hst
  | cons op rest ih =>
    intro st hst
    exact ih (applyOp st op) (scoredConsistent_applyOp hst op)

theorem C3_scored_iff (ops : List DbOp) (r : Row) (h : r ∈ runOps [] ops) :
    r.relevance_score.isSome = r.scored_at.isSome :=
  scoredConsistent_runOps ops [] (by intro r hr; cases hr) r h

/-- C3 witness: the invariant at a freshly inserted (unscored) row. -/
theorem C3_witness :
    (mkRow "t0" samplePaper).relevance_score.isSome =
      (mkRow "t0" samplePaper).scored_at.isSome :=
  C3_scored_iff [DbOp.ins "t0" samplePaper] (mkRow "t0" samplePaper) (by decide)

/-! ### Claim C4: insert idempotence -/

theorem paper_exists_false_iff {st : Store} {pid : String} :
    paper_exists st pid = false ↔ ∀ r ∈ st, r.id ≠ pid := by
  unfold paper_exists
  simp [List.any_eq_true]

/-- C4: re-inserting a paper whose id is already stored is a no-op: the
store keeps exactly one record under that id and that record keeps every
field of the first insertion, including its `fetched_at`. -/
theorem C4_insert_idempotent (st : Store) (p q : Paper) (t1 t2 : String)
    (hid : q.id = p.id) (hfresh : ∀ r ∈ st, r.id ≠ p.id) :
    insert_paper t2 q (insert_paper t1 p st) = insert_paper t1 p st
    ∧ (insert_paper t2 q (insert_paper t1 p st)).filter
        (fun r => r.id == p.id) = [mkRow t1 p] := by
  have hex1 : paper_exists st p.id = false := paper_exists_false_iff.2 hfresh
  have hins1 : insert_paper t1 p st = st ++ [mkRow t1 p] := by
    have e1 : insert_paper t1 p st =
        if paper_exists st p.id = true then st else st ++ [mkRow t1 p] := rfl
    rw [e1, hex1]
    rfl
  have hex2 : paper_exists (insert_paper t1 p st) q.id = true := by
    rw [hins1, hid]
    unfold paper_exists
    simp [List.any_eq_true]
    exact Or.inr rfl
  have hins2 : insert_paper t2 q (insert_paper t1 p st) = insert_paper t1 p st := by
    have e2 : insert_paper t2 q (insert_paper t1 p st) =
        if paper_exists (insert_paper t1 p st) q.id = true then insert_paper t1 p st
        else insert_paper t1 p st ++ [mkRow t2 q] := rfl
    rw [e2, if_pos hex2]
  refine ⟨hins2, ?_⟩
  rw [hins2, hins1, List.filter_append]
  have hl : st.filter (fun r => r.id == p.id) = [] := by
    rw [List.filter_eq_nil_iff]
    intro r hr
    simp [hfresh r hr]
  rw [hl]
  simp [mkRow]

/-- C4 witness: double insertion of the sample paper into the empty store. -/
theorem C4_witness :
    insert_paper "t2" samplePaper (insert_paper "t1" samplePaper []) =
      insert_paper "t1" samplePaper []
    ∧ (insert_paper "t2" samplePaper (insert_paper "t1" samplePaper [])).filter
        (fun r => r.id == samplePaper.id) = [mkRow "t1" samplePaper] :=
  C4_insert_idempotent [] samplePaper samplePaper "t1" "t2" rfl (by decide)

/-! ### Claim C9: toggle_star frame and involution -/

/-- Equality of two rows on every column except `starred`. -/
def eqExceptStarred (a b : Row) : Prop :=
  a.id = b.id ∧ a.source = b.source ∧ a.title = b.title ∧
    a.authors = b.authors ∧ a.abstract = b.abstract ∧
    a.journal = b.journal ∧ a.published_date = b.published_date ∧
    a.url = b.url ∧ a.doi = b.doi ∧
    a.relevance_score = b.relevance_score ∧ a.summary = b.summary ∧
    a.key_finding = b.key_finding ∧ a.tags = b.tags ∧
    a.fetched_at = b.fetched_at ∧ a.scored_at = b.scored_at ∧
    a.notes = b.notes

theorem toggleRow_eqExceptStarred (pid : String) (r : Row) :
    eqExceptStarred (toggleRow pid r) r := by
  unfold toggleRow
  by_cases hid : r.id = pid
  · rw [if_pos hid]
    exact ⟨rfl, rfl, rfl, rfl, rfl, rfl, rfl, rfl, rfl, rfl, rfl, rfl, rfl,
      rfl, rfl, rfl⟩
  · rw [if_neg hid]
    exact ⟨rfl, rfl, rfl, rfl, rfl, rfl, rfl, rfl, rfl, rfl, rfl, rfl, rfl,
      rfl, rfl, rfl⟩

theorem toggleRow_involutive (pid : String) (r : Row)
    (h : r.id = pid → r.starred = 0 ∨ r.starred = 1) :
    toggleRow pid (toggleRow pid r) = r := by
  unfold toggleRow
  by_cases hid : r.id = pid
  · rw [if_pos hid]
    simp only [if_pos hid]
    rcases h hid with h0 | h1
    · rw [h0]
      norm_num
      have he : ({ r with starred := r.starred } : Row) = r := rfl
      rw [h0] at he
      exact he
    · rw [h1]
      norm_num
      have he : ({ r with starred := r.starred } : Row) = r := rfl
      rw [h1] at he
      exact he
  · rw [if_neg hid, if_neg hid]

/-- C9: `toggle_star` changes only the `starred` column of rows whose id
matches (all other columns of every row, and every row at a different id,
are untouched), and applying it twice restores a store whose addressed
rows carry a 0/1 flag. -/
theorem C9_toggle_star (pid : String) (st : Store)
    (h : ∀ r ∈ st, r.id = pid → r.starred = 0 ∨ r.starred = 1) :
    toggle_star pid (toggle_star pid st) = st
    ∧ (toggle_star pid st).length = st.length
    ∧ ∀ i : Nat, i < st.length →
      ∃ a b, st[i]? = some a ∧ (toggle_star pid st)[i]? = some b ∧
        eqExceptStarred b a ∧ (a.id ≠ pid → b.starred = a.starred) := by
  refine ⟨?_, ?_, ?_⟩
  · unfold toggle_star
    rw [List.map_map]
    have : ∀ r ∈ st, (toggleRow pid ∘ toggleRow pid) r = id r := by
      intro r hr
      exact toggleRow_involutive pid r (h r hr)
    rw [List.map_congr_left this, List.map_id]
  · unfold toggle_star
    exact List.length_map st (toggleRow pid)
  · intro i hi
    refine ⟨st[i], toggleRow pid st[i], List.getElem?_eq_getElem hi, ?_, ?_, ?_⟩
    · unfold toggle_star
      rw [List.getElem?_map, List.getElem?_eq_getElem hi]
      rfl
    · exact toggleRow_eqExceptStarred pid st[i]
    · intro hne
      unfold toggleRow
      rw [if_neg hne]

/-- C9 witness: double toggle on a singleton store holding the sample
(starred = 0) row. -/
theorem C9_witness :
    toggle_star "pubmed:12345" (toggle_star "pubmed:12345" [mkRow "t0" samplePaper]) =
      [mkRow "t0" samplePaper]
    ∧ (toggle_star "pubmed:12345" [mkRow "t0" samplePaper]).length =
      [mkRow "t0" samplePaper].length
    ∧ ∀ i : Nat, i < [mkRow "t0" samplePaper].length →
      ∃ a b, [mkRow "t0" samplePaper][i]? = some a ∧
        (toggle_star "pubmed:12345" [mkRow "t0" samplePaper])[i]? = some b ∧
        eqExceptStarred b a ∧ (a.id ≠ "pubmed:12345" → b.starred = a.starred) :=
  C9_toggle_star "pubmed:12345" [mkRow "t0" samplePaper] (by decide)

/-! ### Claim C6: pre-flight check aborts the scoring pass -/

/-- C6: when the pre-flight check fails — the service is unreachable or
the configured model is not among the listed models — `score_all_unscored`
returns 0 and leaves the store untouched, so every previously unscored
paper is still unscored. -/
theorem C6_preflight_abort (reachable : Bool) (models : List String)
    (reply : Row → Option String) (now : String) (st : Store)
    (h : reachable = false ∨
      (models.map (fun m => (splitChar ':' m).headD m)).contains OLLAMA_MODEL = false) :
    score_all_unscored reachable models reply now st = (st, 0)
    ∧ get_unscored_papers (score_all_unscored reachable models reply now st).1 =
      get_unscored_papers st := by
  have hchk : check_ollama reachable models = false := by
    rcases h with h1 | h2
    · rw [h1]
      rfl
    · unfold check_ollama
      cases reachable
      · rfl
      · simp only [if_pos]
        exact h2
  have hmain : score_all_unscored reachable models reply now st = (st, 0) := by
    unfold score_all_unscored
    rw [hchk]
    by_cases hp : (get_unscored_papers st).isEmpty
    · rw [if_pos hp]
    · rw [if_neg hp]
      rfl
  exact ⟨hmain, by rw [hmain]⟩

/-- C6 witness: an unreachable service leaves a store with one unscored
row untouched. -/
theorem C6_witness :
    score_all_unscored false [] (fun _ => none) "t1" [mkRow "t0" samplePaper] =
      ([mkRow "t0" samplePaper], 0)
    ∧ get_unscored_papers
        (score_all_unscored false [] (fun _ => none) "t1" [mkRow "t0" samplePaper]).1 =
      get_unscored_papers [mkRow "t0" samplePaper] :=
  C6_preflight_abort false [] (fun _ => none) "t1" [mkRow "t0" samplePaper]
    (Or.inl rfl)

/-! ### Claim C8: get_papers filtering, ordering, limiting -/

theorem paperOrd_iff (a b : Row) :
    paperOrd a b = true ↔
      (b.published_date < a.published_date ∨
        (a.published_date = b.published_date ∧ scoreKey b ≤ scoreKey a)) := by
  unfold paperOrd
  simp [Bool.or_eq_true, Bool.and_eq_true, decide_eq_true_eq, beq_iff_eq]

theorem paperOrd_trans (a b c : Row) :
    paperOrd a b → paperOrd b c → paperOrd a c := by
  intro hab hbc
  rw [paperOrd_iff] at hab hbc ⊢
  rcases hab with h1 | ⟨e1, s1⟩
  · rcases hbc with h2 | ⟨e2, s2⟩
    · exact Or.inl (lt_trans h2 h1)
    · exact Or.inl (e2 ▸ h1)
  · rcases hbc with h2 | ⟨e2, s2⟩
    · exact Or.inl (e1 ▸ h2)
    · exact Or.inr ⟨e1.trans e2, le_trans s2 s1⟩

theorem paperOrd_total (a b : Row) : paperOrd a b || paperOrd b a := by
  rw [Bool.or_eq_true, paperOrd_iff, paperOrd_iff]
  rcases lt_trichotomy a.published_date b.published_date with h | h | h
  · exact Or.inr (Or.inl h)
  · rcases le_total (scoreKey a) (scoreKey b) with hs | hs
    · exact Or.inr (Or.inr ⟨h.symm, hs⟩)
    · exact Or.inl (Or.inr ⟨h, hs⟩)
  · exact Or.inl (Or.inl h)

theorem mem_sourceFilter {src : Option String} {rows : List Row} {r : Row}
    (h : r ∈ sourceFilter src rows) : r ∈ rows := by
  unfold sourceFilter at h
  rcases ho : optTruthy src with _ | sv
  · simp only [ho] at h
    exact h
  · simp only [ho] at h
    exact List.mem_of_mem_filter h

theorem mem_tagFilter {tag : Option String} {rows : List Row} {r : Row}
    (h : r ∈ tagFilter tag rows) : r ∈ rows := by
  unfold tagFilter at h
  rcases ho : optTruthy tag with _ | tv
  · simp only [ho] at h
    exact h
  · simp only [ho] at h
    exact List.mem_of_mem_filter h

/-- C8: `get_papers` returns only records whose `relevance_score` is set
and at least `minScore` (unscored records never appear), in descending
`published_date` order with ties broken by descending `relevance_score`,
and never more than `lim` records. -/
theorem C8_get_papers (minScore : Int) (lim : Nat) (src tag : Option String)
    (st : Store) :
    (∀ r ∈ get_papers minScore lim src tag st,
      ∃ sc, r.relevance_score = some sc ∧ minScore ≤ sc)
    ∧ (get_papers minScore lim src tag st).Pairwise (fun a b =>
        b.published_date < a.published_date ∨
          (a.published_date = b.published_date ∧ scoreKey b ≤ scoreKey a))
    ∧ (get_papers minScore lim src tag st).length ≤ lim := by
  refine ⟨?_, ?_, ?_⟩
  · intro r hr
    unfold get_papers at hr
    have h1 := List.mem_mergeSort.1 (List.mem_of_mem_take hr)
    have h2 := mem_sourceFilter (mem_tagFilter h1)
    have h3 := (List.mem_filter.1 h2).2
    unfold scoreAtLeast at h3
    rcases ho : r.relevance_score with _ | sc
    · rw [ho] at h3
      cases h3
    · rw [ho] at h3
      exact ⟨sc, rfl, of_decide_eq_true h3⟩
  · unfold get_papers
    have hs := List.sorted_mergeSort paperOrd_trans
      (fun a b => paperOrd_total a b)
      (tagFilter tag (sourceFilter src (st.filter (scoreAtLeast minScore))))
    have hp := hs.sublist (List.take_sublist lim _)
    exact hp.imp (fun hab => (paperOrd_iff _ _).1 hab)
  · unfold get_papers
    exact List.length_take_le lim _

/-! ### Claim C10: the bulk adapter drops DOI-less records -/

theorem biorxivKeep_parts {st : Store} {queries : List String}
    {server : String} {p : BioRaw} (h : biorxivKeep st queries server p = true) :
    p.doi.getD "" ≠ ""
    ∧ paper_exists st (server ++ ":" ++ p.doi.getD "") = false
    ∧ matches_query p queries = true := by
  unfold biorxivKeep at h
  rw [Bool.and_eq_true, Bool.and_eq_true] at h
  refine ⟨of_decide_eq_true h.1.1, ?_, h.2⟩
  have := h.1.2
  rwa [Bool.not_eq_true'] at this

theorem fetch_biorxiv_server_drops_empty (st : Store) (queries : List String)
    (server : String) (raws : List BioRaw) :
    fetch_biorxiv_server st queries server
        (raws.filter (fun p => p.doi.getD "" ≠ "")) =
      fetch_biorxiv_server st queries server raws := by
  unfold fetch_biorxiv_server
  rw [List.filter_filter]
  congr 1
  apply List.filter_congr
  intro p _
  cases hk : biorxivKeep st queries server p
  · rw [Bool.false_and]
  · rw [Bool.true_and]
    exact decide_eq_true (biorxivKeep_parts hk).1

/-- C10: `fetch_biorxiv` silently excludes every bulk-listing record whose
doi is missing or empty — removing all such records from either server
listing changes nothing, and every emitted paper carries a non-empty doi
(so a DOI-less bulk-catalog paper is never stored), regardless of the
query matching. -/
theorem C10_biorxiv_empty_doi (st : Store) (rawsBio rawsMed : List BioRaw) :
    fetch_biorxiv st (rawsBio.filter (fun p => p.doi.getD "" ≠ ""))
        (rawsMed.filter (fun p => p.doi.getD "" ≠ "")) =
      fetch_biorxiv st rawsBio rawsMed
    ∧ ∀ p ∈ fetch_biorxiv st rawsBio rawsMed, p.doi ≠ "" := by
  constructor
  · unfold fetch_biorxiv
    rw [fetch_biorxiv_server_drops_empty, fetch_biorxiv_server_drops_empty]
  · intro p hp
    unfold fetch_biorxiv at hp
    have main : ∀ server raws, p ∈ fetch_biorxiv_server st BIORXIV_QUERIES server raws →
        p.doi ≠ "" := by
      intro server raws hmem
      unfold fetch_biorxiv_server at hmem
      rcases List.mem_map.1 hmem with ⟨q, hq, hpq⟩
      have hk := (List.mem_filter.1 hq).2
      have hd := (biorxivKeep_parts hk).1
      rw [← hpq]
      exact hd
    rcases List.mem_append.1 hp with h1 | h1
    · exact main "biorxiv" rawsBio h1
    · exact main "medrxiv" rawsMed h1

/-- C10 witness: the single surviving sample record has a non-empty doi. -/
theorem C10_witness : (biorxivPaper "biorxiv" sampleBioRaw).doi ≠ "" :=
  (C10_biorxiv_empty_doi [] [sampleBioRaw] []).2
    (biorxivPaper "biorxiv" sampleBioRaw) (by decide)

/-! ### dedupDoi characterization (claims C5 and C7) -/

theorem dedupDoi_sublist (l : List Paper) :
    ∀ seen, List.Sublist (dedupDoi seen l) l := by
  induction l with
  | nil =>
    intro seen
    exact List.Sublist.refl []
  | cons p ps ih =>
    intro seen
    unfold dedupDoi
    by_cases h1 : (decide (p.doi ≠ "") && seen.contains p.doi) = true
    · rw [if_pos h1]
      exact (ih seen).cons p
    · rw [if_neg h1]
      by_cases h2 : p.doi = ""
      · rw [if_neg (not_not_intro h2)]
        exact (ih seen).cons₂ p
      · rw [if_pos h2]
        exact (ih (p.doi :: seen)).cons₂ p

theorem dedupDoi_filter_empty (l : List Paper) :
    ∀ seen, (dedupDoi seen l).filter (fun p => p.doi == "") =
      l.filter (fun p => p.doi == "") := by
  induction l with
  | nil =>
    intro seen
    rfl
  | cons p ps ih =>
    intro seen
    unfold dedupDoi
    by_cases h1 : (decide (p.doi ≠ "") && seen.contains p.doi) = true
    · rw [if_pos h1]
      have h1c := h1
      rw [Bool.and_eq_true] at h1c
      have hne : p.doi ≠ "" := of_decide_eq_true h1c.1
      rw [List.filter_cons_of_neg (by simp [hne])]
      exact ih seen
    · rw [if_neg h1]
      by_cases h2 : p.doi = ""
      · rw [if_neg (not_not_intro h2)]
        rw [List.filter_cons_of_pos (by simp [h2]), List.filter_cons_of_pos (by simp [h2])]
        rw [ih seen]
      · rw [if_pos h2]
        rw [List.filter_cons_of_neg (by simp [h2]), List.filter_cons_of_neg (by simp [h2])]
        exact ih (p.doi :: seen)

theorem dedupDoi_find_first (l : List Paper) :
    ∀ seen d, d ≠ "" → seen.contains d = false →
      (dedupDoi seen l).find? (fun p => p.doi == d) =
        l.find? (fun p => p.doi == d) := by
  induction l with
  | nil =>
    intro seen d _ _
    rfl
  | cons p ps ih =>
    intro seen d hd hseen
    unfold dedupDoi
    by_cases h1 : (decide (p.doi ≠ "") && seen.contains p.doi) = true
    · rw [if_pos h1]
      have hpd : p.doi ≠ d := by
        intro he
        rw [he] at h1
        rw [hseen, Bool.and_false] at h1
        cases h1
      rw [List.find?_cons_of_neg _ (by simp [hpd])]
      exact ih seen d hd hseen
    · rw [if_neg h1]
      by_cases h2 : p.doi = ""
      · rw [if_neg (not_not_intro h2)]
        have hpd : p.doi ≠ d := by
          rw [h2]
          exact fun he => hd he.symm
        rw [List.find?_cons_of_neg _ (by simp [hpd]),
          List.find?_cons_of_neg _ (by simp [hpd])]
        exact ih seen d hd hseen
      · rw [if_pos h2]
        by_cases h3 : p.doi = d
        · rw [List.find?_cons_of_pos _ (by simp [h3]),
            List.find?_cons_of_pos _ (by simp [h3])]
        · rw [List.find?_cons_of_neg _ (by simp [h3]),
            List.find?_cons_of_neg _ (by simp [h3])]
          refine ih (p.doi :: seen) d hd ?_
          simp only [List.contains_cons, hseen, Bool.or_false]
          rw [beq_eq_false_iff_ne]
          exact fun he => h3 he.symm

theorem dedupDoi_dois_nodup (l : List Paper) :
    ∀ seen,
      (((dedupDoi seen l).map Paper.doi).filter (fun d => d ≠ "")).Nodup
      ∧ ∀ d ∈ ((dedupDoi seen l).map Paper.doi).filter (fun d => d ≠ ""),
        seen.contains d = false := by
  induction l with
  | nil =>
    intro seen
    exact ⟨List.nodup_nil, by intro d hd; cases hd⟩
  | cons p ps ih =>
    intro seen
    unfold dedupDoi
    by_cases h1 : (decide (p.doi ≠ "") && seen.contains p.doi) = true
    · rw [if_pos h1]
      exact ih seen
    · rw [if_neg h1]
      by_cases h2 : p.doi = ""
      · rw [if_neg (not_not_intro h2)]
        rw [List.map_cons, List.filter_cons_of_neg (by simp [h2])]
        exact ih seen
      · rw [if_pos h2]
        rw [List.map_cons, List.filter_cons_of_pos (by simp [h2])]
        have ihp := ih (p.doi :: seen)
        constructor
        · refine List.Nodup.cons ?_ ihp.1
          intro hmem
          have := ihp.2 p.doi hmem
          simp [List.contains_cons] at this
        · intro d hd
          rcases List.mem_cons.1 hd with hd1 | hd2
          · rw [hd1]
            rcases Bool.eq_false_or_eq_true (seen.contains p.doi) with ht | hf
            · exfalso
              apply h1
              rw [ht, Bool.and_true]
              exact decide_eq_true h2
            · exact hf
          · have := ihp.2 d hd2
            simp only [List.contains_cons] at this
            rcases Bool.or_eq_false_iff.1 this with ⟨_, h4⟩
            exact h4

theorem insert_foldl_fresh (now : String) (ps : List Paper) :
    ∀ st : Store,
      (∀ p ∈ ps, paper_exists st p.id = false) →
      ((ps.map Paper.id).Nodup) →
      ps.foldl (fun s p => insert_paper now p s) st = st ++ ps.map (mkRow now) := by
  induction ps with
  | nil =>
    intro st _ _
    simp
  | cons p ps ih =>
    intro st hfresh hnodup
    have h0 : insert_paper now p st = st ++ [mkRow now p] := by
      have e : insert_paper now p st =
          if paper_exists st p.id = true then st else st ++ [mkRow now p] := rfl
      rw [e, hfresh p (List.mem_cons_self p ps)]
      rfl
    have hstep : (p :: ps).foldl (fun s q => insert_paper now q s) st
        = ps.foldl (fun s q => insert_paper now q s) (insert_paper now p st) := rfl
    rw [List.map_cons] at hnodup
    have hfresh2 : ∀ q ∈ ps, paper_exists (st ++ [mkRow now p]) q.id = false := by
      intro q hq
      have hq1 : paper_exists st q.id = false := hfresh q (List.mem_cons_of_mem p hq)
      have hqid : q.id ≠ p.id := by
        intro he
        exact (List.nodup_cons.1 hnodup).1 (he ▸ List.mem_map_of_mem Paper.id hq)
      unfold paper_exists at hq1 ⊢
      rw [List.any_append, hq1, Bool.false_or]
      simp [mkRow]
      exact fun he => hqid he.symm
    rw [hstep, h0, ih (st ++ [mkRow now p]) hfresh2 (List.nodup_cons.1 hnodup).2]
    simp

theorem fetch_biorxiv_fresh (st : Store) (rawsBio rawsMed : List BioRaw) :
    ∀ p ∈ fetch_biorxiv st rawsBio rawsMed, paper_exists st p.id = false := by
  intro p hp
  have main : ∀ server raws,
      p ∈ fetch_biorxiv_server st BIORXIV_QUERIES server raws →
      paper_exists st p.id = false := by
    intro server raws hmem
    unfold fetch_biorxiv_server at hmem
    rcases List.mem_map.1 hmem with ⟨q, hq, hpq⟩
    have hk := (List.mem_filter.1 hq).2
    have h2 := (biorxivKeep_parts hk).2.1
    rw [← hpq]
    exact h2
  rcases List.mem_append.1 hp with h1 | h1
  · exact main "biorxiv" rawsBio h1
  · exact main "medrxiv" rawsMed h1

/-- C5: the fetch pipeline applies cross-run dedup at the adapters (a PMID
whose composite id is stored never reaches the new-PMID list; every bulk
record emitted has an unseen id), then the within-run DOI dedup pass —
which is order-preserving, keeps for each non-empty doi exactly its first
occurrence in emission order, never drops an empty-doi record, and leaves
the surviving non-empty dois pairwise distinct — then truncation to
`MAX_PAPERS_PER_RUN`, and exactly the surviving records are inserted. -/
theorem C5_fetch_pipeline (now : String) (st : Store) (allPmids : List String)
    (fetchDetails : List String → List Paper) (rawsBio rawsMed : List BioRaw)
    (emitted : List Paper)
    (hemit : emitted =
      fetch_pubmed st allPmids fetchDetails ++ fetch_biorxiv st rawsBio rawsMed)
    (hfresh : ∀ p ∈ emitted, paper_exists st p.id = false)
    (hnodup : (emitted.map Paper.id).Nodup) :
    (∀ pm ∈ allPmids, paper_exists st ("pubmed:" ++ pm) = true →
      pm ∉ pubmedNewPmids st allPmids)
    ∧ (∀ p ∈ fetch_biorxiv st rawsBio rawsMed, paper_exists st p.id = false)
    ∧ List.Sublist (dedupDoi [] emitted) emitted
    ∧ (dedupDoi [] emitted).filter (fun p => p.doi == "") =
        emitted.filter (fun p => p.doi == "")
    ∧ (∀ d, d ≠ "" → (dedupDoi [] emitted).find? (fun p => p.doi == d) =
        emitted.find? (fun p => p.doi == d))
    ∧ (((dedupDoi [] emitted).map Paper.doi).filter (fun d => d ≠ "")).Nodup
    ∧ ((dedupDoi [] emitted).take MAX_PAPERS_PER_RUN).length ≤ MAX_PAPERS_PER_RUN
    ∧ fetch_all now st allPmids fetchDetails rawsBio rawsMed =
        (st ++ ((dedupDoi [] emitted).take MAX_PAPERS_PER_RUN).map (mkRow now),
          ((dedupDoi [] emitted).take MAX_PAPERS_PER_RUN).length) := by
  have hsub : List.Sublist ((dedupDoi [] emitted).take MAX_PAPERS_PER_RUN) emitted :=
    (List.take_sublist _ _).trans (dedupDoi_sublist emitted [])
  refine ⟨?_, fetch_biorxiv_fresh st rawsBio rawsMed,
    dedupDoi_sublist emitted [], dedupDoi_filter_empty emitted [],
    ?_, (dedupDoi_dois_nodup emitted []).1, List.length_take_le _ _, ?_⟩
  · intro pm hm hex hmem
    unfold pubmedNewPmids at hmem
    have hb := (List.mem_filter.1 hmem).2
    rw [hex] at hb
    cases hb
  · intro d hd
    exact dedupDoi_find_first emitted [] d hd rfl
  · have hf : ∀ p ∈ (dedupDoi [] emitted).take MAX_PAPERS_PER_RUN,
        paper_exists st p.id = false :=
      fun p hp => hfresh p (hsub.subset hp)
    have hn : (((dedupDoi [] emitted).take MAX_PAPERS_PER_RUN).map Paper.id).Nodup :=
      List.Nodup.sublist (List.Sublist.map Paper.id hsub) hnodup
    unfold fetch_all
    rw [← hemit]
    show (((dedupDoi [] emitted).take MAX_PAPERS_PER_RUN).foldl
        (fun s p => insert_paper now p s) st,
      ((dedupDoi [] emitted).take MAX_PAPERS_PER_RUN).length) = _
    rw [insert_foldl_fresh now _ st hf hn]

/-- C5 witness: one bulk-listing record flows through dedup, truncation and
insertion into the empty store. -/
theorem C5_witness :
    fetch_all "t0" [] [] (fun _ => []) [sampleBioRaw] [] =
      ([mkRow "t0" (biorxivPaper "biorxiv" sampleBioRaw)], 1) := by
  have h := (C5_fetch_pipeline "t0" [] [] (fun _ => []) [sampleBioRaw] []
    [biorxivPaper "biorxiv" sampleBioRaw] (by decide) (by decide)
    (by decide)).2.2.2.2.2.2.2
  exact h.trans (by decide)

/-- C7: when every candidate offered by the upstream sources is already
stored — the composite id of each searched PMID exists and each bulk record
with a non-empty doi has its composite id stored — a second `fetch_all`
run inserts nothing and reports 0: the store is unchanged. -/
theorem C7_rerun_safe (now : String) (st : Store) (allPmids : List String)
    (fetchDetails : List String → List Paper) (rawsBio rawsMed : List BioRaw)
    (hpm : ∀ pm ∈ allPmids, paper_exists st ("pubmed:" ++ pm) = true)
    (hbio : ∀ p ∈ rawsBio, p.doi.getD "" ≠ "" →
      paper_exists st ("biorxiv:" ++ p.doi.getD "") = true)
    (hmed : ∀ p ∈ rawsMed, p.doi.getD "" ≠ "" →
      paper_exists st ("medrxiv:" ++ p.doi.getD "") = true) :
    fetch_all now st allPmids fetchDetails rawsBio rawsMed = (st, 0) := by
  have h1 : pubmedNewPmids st allPmids = [] := by
    unfold pubmedNewPmids
    rw [List.filter_eq_nil_iff]
    intro pm hm
    rw [hpm pm hm]
    simp
  have h2 : fetch_pubmed st allPmids fetchDetails = [] := by
    unfold fetch_pubmed
    rw [h1]
    rfl
  have hserver : ∀ server raws,
      (∀ p ∈ raws, p.doi.getD "" ≠ "" →
        paper_exists st (server ++ ":" ++ p.doi.getD "") = true) →
      fetch_biorxiv_server st BIORXIV_QUERIES server raws = [] := by
    intro server raws hr
    unfold fetch_biorxiv_server
    have hf : raws.filter (biorxivKeep st BIORXIV_QUERIES server) = [] := by
      rw [List.filter_eq_nil_iff]
      intro p hp hk
      have parts := biorxivKeep_parts hk
      have htrue := hr p hp parts.1
      rw [htrue] at parts
      exact absurd parts.2.1 (by simp)
    rw [hf]
    rfl
  unfold fetch_all fetch_biorxiv
  rw [h2, hserver "biorxiv" rawsBio hbio, hserver "medrxiv" rawsMed hmed]
  rfl

/-- C7 witness: rerunning the fetch against already-stored candidates. -/
theorem C7_witness :
    fetch_all "t1"
      [mkRow "t0" samplePaper, mkRow "t0" (biorxivPaper "biorxiv" sampleBioRaw)]
      ["12345"] (fun _ => []) [sampleBioRaw] [] =
      ([mkRow "t0" samplePaper, mkRow "t0" (biorxivPaper "biorxiv" sampleBioRaw)], 0) :=
  C7_rerun_safe "t1"
    [mkRow "t0" samplePaper, mkRow "t0" (biorxivPaper "biorxiv" sampleBioRaw)]
    ["12345"] (fun _ => []) [sampleBioRaw] []
    (by decide) (by decide) (by decide)

/-- C8 witness: the limit bound at a concrete call. -/
theorem C8_witness : (get_papers 7 3 none none []).length ≤ 3 :=
  (C8_get_papers 7 3 none none []).2.2
